import Mathlib

/-!
A verification development for the My-Study-Schedule daily planner
(src/app.js).  The data model and every operation the claims mention are
embedded shallowly from the source:

* JS strings stay Lean Strings; the comparator used by
  TaskManager.sortTasks, localeCompare on zero-padded "HH:MM" strings,
  is modelled by lexicographic String order, and the stable JS
  Array.prototype.sort by List.mergeSort (a stable sort).
* Opaque unique ids (Date.now + random suffix in the source) are
  modelled as natural numbers drawn from a monotone counter that the
  caller threads through; freshness of the generator is expressed by
  the invariant that every stored id is below the counter.
* DateKey strings "YYYY-MM-DD" are in bijection with calendar days, so
  the store is indexed by the day number (an integer, days since the
  epoch 1970-01-01, which fell on a Thursday, hence getDay offset 4);
  DateUtil.addDays is integer addition and DateUtil.getStartOfWeek is
  carried over literally.
* Math.round over JS numbers is modelled by exact rational arithmetic:
  jsRound q = the floor of q + 1/2, which is the half-up rounding
  Math.round performs (floating point representation error is outside
  the scope of this embedding).
* JS falsiness of strings (only "" is falsy) gives the x || default
  idiom; parseInt is modelled by parseIntJs (optional sign, leading
  decimal digits, none when no digit is found).
* Field accesses that throw a TypeError on null/undefined
  (topicData.notes.trim(), activityData.content.trim(), ...) are
  modelled by Except Unit results: the inputs carry Option String for
  the fields the forms may omit, and a none value yields .error ()
  before any record is built, matching the JS exception aborting the
  function before the push/save.
-/

namespace StudySchedule

/-- A timetable task, from TaskManager.addTask in src/app.js. -/
structure Task where
  id : Nat
  startTime : String
  endTime : String
  name : String
  category : String
  completed : Bool
deriving DecidableEq, Repr

/-- The four fields the task form provides (taskData in src/app.js). -/
structure TaskInput where
  startTime : String
  endTime : String
  name : String
  category : String
deriving DecidableEq, Repr

/-- A study topic, from DSTopicManager.addTopic: the duration field is
stored exactly as the form gave it (a string) or null, hence
Option String here. -/
structure DSTopic where
  id : Nat
  topic : String
  duration : Option String
  difficulty : String
  resource : String
  notes : Option String
  date : Int
deriving DecidableEq, Repr

/-- Input to DSTopicManager.addTopic.  The notes field may be absent or
null in JS, hence Option String; the others are always strings coming
from form inputs (an absent duration or difficulty arrives as ""). -/
structure TopicInput where
  topic : String
  duration : String
  difficulty : String
  resource : String
  notes : Option String
deriving DecidableEq, Repr

/-- A JS value as far as the strict comparison in
EnglishManager.addActivity can observe it. -/
inductive JsVal where
  | str : String → JsVal
  | bool : Bool → JsVal
  | num : Int → JsVal
  | null : JsVal
deriving DecidableEq, Repr

/-- A practice activity, from EnglishManager.addActivity. -/
structure EnglishActivity where
  id : Nat
  type : String
  duration : Option String
  completed : Bool
  content : Option String
  notes : Option String
  date : Int
deriving DecidableEq, Repr

/-- Input to EnglishManager.addActivity; content and notes may be
absent or null, and completed may be any JS value (the form sends the
string "true" or "false"). -/
structure ActivityInput where
  type : String
  duration : String
  completed : JsVal
  content : Option String
  notes : Option String
deriving DecidableEq, Repr

/-- The per-date record, StorageManager.getDefaultDateData gives the
empty default. -/
structure DayRecord where
  tasks : List Task := []
  dsTopics : List DSTopic := []
  englishActivities : List EnglishActivity := []
deriving DecidableEq, Repr

/-- StorageManager.getDefaultDateData. -/
def defaultDateData : DayRecord := {}

/-- The persistent map, one DayRecord per day; absent keys read as the
default, exactly as StorageManager.getDateData does. -/
def Store : Type := Int → DayRecord

/-- StorageManager.getDateData. -/
def getDateData (s : Store) (k : Int) : DayRecord := s k

/-- StorageManager.saveDateData. -/
def saveDateData (s : Store) (k : Int) (r : DayRecord) : Store :=
  fun k2 => if k2 = k then r else s k2

/-- The store with no saved data. -/
def emptyStore : Store := fun _ => defaultDateData

/-- DateUtil.addDays on day numbers. -/
def addDays (d : Int) (n : Int) : Int := d + n

/-- JS Date.prototype.getDay on a day number: 0 = Sunday .. 6 =
Saturday; the epoch day 0 (1970-01-01) was a Thursday, getDay 4. -/
def jsGetDay (d : Int) : Int := (d + 4) % 7

/-- ISO weekday numbering, Monday = 1 .. Sunday = 7, derived from the
JS day number. -/
def isoWeekday (d : Int) : Int := if jsGetDay d = 0 then 7 else jsGetDay d

/-- DateUtil.getStartOfWeek: if Sunday go back 6 days, else go back to
Monday. -/
def getStartOfWeek (d : Int) : Int :=
  d + (if jsGetDay d = 0 then -6 else 1 - jsGetDay d)

/-- The comparator of TaskManager.sortTasks:
a.startTime.localeCompare(b.startTime) as a boolean order. -/
def taskLE (a b : Task) : Bool := a.startTime ≤ b.startTime

/-- TaskManager.sortTasks: the stable JS sort by start time. -/
def sortTasks (ts : List Task) : List Task := ts.mergeSort taskLE

/-- The task object literal built by addTask and addRecurringTask:
fresh id, fields copied from the input, completed false. -/
def mkTask (nid : Nat) (d : TaskInput) : Task :=
  { id := nid, startTime := d.startTime, endTime := d.endTime,
    name := d.name, category := d.category, completed := false }

/-- TaskManager.addTask: push the new task, sort, return it (the save
call writes the returned record through to the store). -/
def addTask (r : DayRecord) (nid : Nat) (d : TaskInput) : DayRecord × Task :=
  let task := mkTask nid d
  ({ r with tasks := sortTasks (r.tasks ++ [task]) }, task)

/-- In-place overwrite of the found task in TaskManager.updateTask:
startTime, endTime, name and category change, id and completed stay. -/
def overwriteTask (t : Task) (d : TaskInput) : Task :=
  { t with
    startTime := d.startTime
    endTime := d.endTime
    name := d.name
    category := d.category }

/-- Effect of mutating the task found by
AppState.currentData.tasks.find: only the first task with the id is
overwritten. -/
def updateFirst (id : Nat) (d : TaskInput) : List Task → List Task
  | [] => []
  | t :: ts =>
      if t.id = id then overwriteTask t d :: ts else t :: updateFirst id d ts

/-- TaskManager.updateTask: if a task with the id exists, overwrite its
four input fields in place and re-sort; otherwise do nothing. -/
def updateTask (r : DayRecord) (id : Nat) (d : TaskInput) : DayRecord :=
  if (r.tasks.find? (fun t => t.id = id)).isSome then
    { r with tasks := sortTasks (updateFirst id d r.tasks) }
  else r

/-- TaskManager.deleteTask: keep the tasks whose id differs. -/
def deleteTask (r : DayRecord) (id : Nat) : DayRecord :=
  { r with tasks := r.tasks.filter (fun t => t.id ≠ id) }

/-- Effect of flipping completed on the task found by find. -/
def toggleFirst (id : Nat) : List Task → List Task
  | [] => []
  | t :: ts =>
      if t.id = id then { t with completed := !t.completed } :: ts
      else t :: toggleFirst id ts

/-- TaskManager.toggleTask: flip completed on the found task, no
re-sort; nothing happens when the id is absent. -/
def toggleTask (r : DayRecord) (id : Nat) : DayRecord :=
  if (r.tasks.find? (fun t => t.id = id)).isSome then
    { r with tasks := toggleFirst id r.tasks }
  else r

/-- Math.round over exact rationals: round to nearest, halves up. -/
def jsRound (q : ℚ) : Int := ⌊q + 1 / 2⌋

/-- The record returned by TaskManager.getStats. -/
structure TaskStats where
  total : Nat
  completed : Nat
  rate : Int
deriving DecidableEq, Repr

/-- TaskManager.getStats: Math.round((completed / total) * 100) when
total is positive, otherwise 0. -/
def getStats (r : DayRecord) : TaskStats :=
  let total := r.tasks.length
  let completed := (r.tasks.filter (fun t => t.completed)).length
  let rate : Int :=
    if total > 0 then jsRound (((completed : ℚ) / (total : ℚ)) * 100) else 0
  { total := total, completed := completed, rate := rate }

/-- One pass of the loop body of TaskManager.addRecurringTask applied
to the stored record of one target day. -/
def pushTaskSorted (r : DayRecord) (t : Task) : DayRecord :=
  { r with tasks := sortTasks (r.tasks ++ [t]) }

/-- The loop of TaskManager.addRecurringTask: iteration i targets day
anchor + i, loads that record from the store, pushes a task with the
i-th generated id, sorts, and saves.  The recursion peels the last
iteration, so loop (n+1) runs iterations 0..n in order. -/
def addRecurringLoop (store : Store) (anchor : Int) (d : TaskInput)
    (nid : Nat) : Nat → Store
  | 0 => store
  | n + 1 =>
      let prev := addRecurringLoop store anchor d nid n
      let key := addDays anchor (n : Int)
      let data := getDateData prev key
      saveDateData prev key (pushTaskSorted data (mkTask (nid + n) d))

/-- TaskManager.addRecurringTask over numDays consecutive days starting
at the anchor day (the source then refreshes the in-memory record of
the active day from the store; the store itself is fully described
here). -/
def addRecurringTask (store : Store) (anchor : Int) (d : TaskInput)
    (numDays : Nat) (nid : Nat) : Store :=
  addRecurringLoop store anchor d nid numDays

/-- The JS idiom x || null on a string: only "" is falsy. -/
def strOrNull (s : String) : Option String :=
  if s = "" then none else some s

/-- The JS idiom x || dflt on a string. -/
def strOrDefault (s dflt : String) : String :=
  if s = "" then dflt else s

/-- Whitespace as String.prototype.trim sees it (the characters the
inputs of this program can contain). -/
def isJsSpace (c : Char) : Bool :=
  c = ' ' || c = '\t' || c = '\n' || c = '\r'

/-- Strip leading and trailing whitespace from a character list. -/
def trimChars (cs : List Char) : List Char :=
  ((cs.dropWhile isJsSpace).reverse.dropWhile isJsSpace).reverse

/-- JS String.prototype.trim. -/
def jsTrim (s : String) : String := String.mk (trimChars s.data)

/-- DSTopicManager.addTopic.  The guard tests topicData.topic.trim()
for truthiness; inside the guard the object literal evaluates
topicData.notes.trim(), which throws a TypeError when notes is null or
undefined (modelled by the .error result) before anything is pushed or
saved.  The duration value is stored exactly as given (truthy) or as
null, with no parsing. -/
def addTopic (r : DayRecord) (nid : Nat) (today : Int)
    (input : TopicInput) : Except Unit DayRecord :=
  if jsTrim input.topic ≠ "" then
    match input.notes with
    | none => .error ()
    | some ns =>
        let t : DSTopic :=
          { id := nid
            topic := jsTrim input.topic
            duration := strOrNull input.duration
            difficulty := strOrDefault input.difficulty "Intermediate"
            resource := strOrDefault input.resource "Other"
            notes := strOrNull (jsTrim ns)
            date := today }
        .ok { r with dsTopics := r.dsTopics ++ [t] }
  else .ok r

/-- DSTopicManager.deleteTopic. -/
def deleteTopic (r : DayRecord) (id : Nat) : DayRecord :=
  { r with dsTopics := r.dsTopics.filter (fun t => t.id ≠ id) }

/-- JS parseInt in base 10: skip surrounding whitespace, optional sign,
then the longest run of leading decimal digits; none when that run is
empty (parseInt returns NaN there). -/
def parseIntJs (s : String) : Option Int :=
  let core :=
    match (jsTrim s).data with
    | '-' :: r => ((-1 : Int), r)
    | '+' :: r => ((1 : Int), r)
    | r => ((1 : Int), r)
  let ds := core.2.takeWhile (fun c => c.isDigit)
  if ds.isEmpty then none
  else some (core.1 * (ds.foldl (fun a c => a * 10 + (c.toNat - 48)) 0 : Nat))

/-- The contribution of one stored duration to a minute total:
parseInt(duration) || 0, where parseInt of null is NaN, so unset and
non-numeric durations both contribute 0. -/
def durationContribution (o : Option String) : Int :=
  match o with
  | none => 0
  | some s => (parseIntJs s).getD 0

/-- The record returned by DSTopicManager.getSummary. -/
structure DSSummary where
  totalSessions : Nat
  totalMinutes : Int
deriving DecidableEq, Repr

/-- DSTopicManager.getSummary. -/
def dsGetSummary (r : DayRecord) : DSSummary :=
  { totalSessions := r.dsTopics.length
    totalMinutes :=
      r.dsTopics.foldl (fun sum t => sum + durationContribution t.duration) 0 }

/-- The strict comparison activityData.completed === the string literal
"true": true only for that exact string value, never for any other
value, whatever its type. -/
def strictEqTrueLit (v : JsVal) : Bool :=
  match v with
  | .str s => s = "true"
  | _ => false

/-- EnglishManager.addActivity.  No guard: an activity is always
appended.  The object literal evaluates content.trim() and
notes.trim(), each of which throws on null or undefined (the .error
result) before the push and save. -/
def addActivity (r : DayRecord) (nid : Nat) (today : Int)
    (input : ActivityInput) : Except Unit DayRecord :=
  match input.content, input.notes with
  | some c, some ns =>
      let a : EnglishActivity :=
        { id := nid
          type := input.type
          duration := strOrNull input.duration
          completed := strictEqTrueLit input.completed
          content := strOrNull (jsTrim c)
          notes := strOrNull (jsTrim ns)
          date := today }
      .ok { r with englishActivities := r.englishActivities ++ [a] }
  | _, _ => .error ()

/-- EnglishManager.deleteActivity. -/
def deleteActivity (r : DayRecord) (id : Nat) : DayRecord :=
  { r with
    englishActivities := r.englishActivities.filter (fun a => a.id ≠ id) }

/-- The record returned by EnglishManager.getSummary. -/
structure EnglishSummary where
  totalActivities : Nat
  completedActivities : Nat
  totalMinutes : Int
deriving DecidableEq, Repr

/-- EnglishManager.getSummary. -/
def englishGetSummary (r : DayRecord) : EnglishSummary :=
  { totalActivities := r.englishActivities.length
    completedActivities :=
      (r.englishActivities.filter (fun a => a.completed)).length
    totalMinutes :=
      r.englishActivities.foldl
        (fun sum a => sum + durationContribution a.duration) 0 }

/-- One day card of the weekly overview: the day it shows and the
completion rate printed on it. -/
structure WeekEntry where
  day : Int
  completionRate : Int
deriving DecidableEq, Repr

/-- UI.renderWeeklyOverview, stripped of markup: for each of the 7 days
from the Monday that starts the week of the anchor, load that record
from the store (read only, no save anywhere in the loop) and compute
the completion rate by the getStats formula. -/
def weeklyOverview (store : Store) (anchor : Int) : List WeekEntry :=
  (List.range 7).map (fun i =>
    let date := addDays (getStartOfWeek anchor) (i : Int)
    let data := getDateData store date
    let total := data.tasks.length
    let completed := (data.tasks.filter (fun t => t.completed)).length
    let rate : Int :=
      if total > 0 then jsRound (((completed : ℚ) / (total : ℚ)) * 100) else 0
    { day := date, completionRate := rate })

/-- The pieces of AppState that the managers touch: the active day, its
in-memory record, the id counter of the generators, and the store. -/
structure AppSt where
  currentDay : Int
  currentData : DayRecord
  nextId : Nat
  store : Store

/-- AppState.save: write the in-memory record through to the store. -/
def appSave (st : AppSt) : AppSt :=
  { st with store := saveDateData st.store st.currentDay st.currentData }

/-- TaskManager.deleteTask at the AppState level: filter the in-memory
task list, then save unconditionally (even when nothing was removed). -/
def appDeleteTask (st : AppSt) (id : Nat) : AppSt :=
  appSave { st with currentData := deleteTask st.currentData id }

/-- The ordering invariant of the spec: tasks sorted ascending by
startTime under lexicographic string comparison. -/
def SortedTasks (ts : List Task) : Prop :=
  ts.Pairwise (fun a b => a.startTime ≤ b.startTime)

/-- A concrete task for examples. -/
def sampleTask (i : Nat) (s : String) (c : Bool) : Task :=
  { id := i, startTime := s, endTime := s, name := "task",
    category := "Study", completed := c }

/-- A day with 3 tasks, 1 completed (the rate 33 example). -/
def recOneOfThree : DayRecord :=
  { tasks := [sampleTask 1 "08:00" true, sampleTask 2 "09:00" false,
              sampleTask 3 "10:00" false] }

/-- A day with 3 tasks, 2 completed (the rate 67 example). -/
def recTwoOfThree : DayRecord :=
  { tasks := [sampleTask 1 "08:00" true, sampleTask 2 "09:00" true,
              sampleTask 3 "10:00" false] }

/-- A concrete study topic with a given stored duration value. -/
def sampleTopic (i : Nat) (dur : Option String) : DSTopic :=
  { id := i, topic := "Linear Algebra", duration := dur,
    difficulty := "Intermediate", resource := "Other", notes := none,
    date := 0 }

/-- A day whose topics carry durations 30, null and "abc" (the
totalMinutes = 30 example of the spec). -/
def recDurations : DayRecord :=
  { dsTopics := [sampleTopic 1 (some "30"), sampleTopic 2 none,
                 sampleTopic 3 (some "abc")] }

/-- A concrete task form input. -/
def sampleInput : TaskInput :=
  { startTime := "09:00", endTime := "10:00", name := "Math",
    category := "Study" }

/-- A topic input whose duration field holds the non-numeric string
"abc": the code stores it verbatim. -/
def cxTopicInput : TopicInput :=
  { topic := "Linear Algebra", duration := "abc", difficulty := "",
    resource := "", notes := some "" }

/-- A topic input with a blank topic and absent notes: the guard
declines before the notes field is ever touched, so no error occurs. -/
def cxTopicInputEmpty : TopicInput :=
  { topic := "   ", duration := "", difficulty := "", resource := "",
    notes := none }

/-- A well-formed topic input for witnesses. -/
def sampleTopicInput : TopicInput :=
  { topic := " Linear Algebra ", duration := "", difficulty := "",
    resource := "Video", notes := some "  " }

/-- An activity input whose completed field is the boolean true rather
than the string literal "true". -/
def sampleActivityInput : ActivityInput :=
  { type := "Podcast", duration := "15", completed := JsVal.bool true,
    content := some " news ", notes := some "" }

/-- An activity input whose content field is absent. -/
def nullContentActivityInput : ActivityInput :=
  { type := "Podcast", duration := "", completed := JsVal.str "true",
    content := none, notes := some "" }

/-- The activity object literal EnglishManager.addActivity builds once
its content and notes fields are the strings c and ns. -/
def builtActivity (nid : Nat) (today : Int) (input : ActivityInput)
    (c ns : String) : EnglishActivity :=
  { id := nid, type := input.type, duration := strOrNull input.duration,
    completed := strictEqTrueLit input.completed,
    content := strOrNull (jsTrim c), notes := strOrNull (jsTrim ns),
    date := today }

/-! Helper lemmas about the embedded operations, shared by the claim
theorems below. -/

open List

/-- The sort comparator is transitive. -/
theorem taskLE_trans (a b c : Task) (h1 : taskLE a b) (h2 : taskLE b c) :
    taskLE a c := by
  simp only [taskLE, decide_eq_true_eq] at h1 h2 ⊢
  exact le_trans h1 h2

/-- The sort comparator is total. -/
theorem taskLE_total (a b : Task) : taskLE a b || taskLE b a := by
  simp only [taskLE, Bool.or_eq_true, decide_eq_true_eq]
  exact le_total a.startTime b.startTime

/-- Sorting always yields a list sorted by start time. -/
theorem sortTasks_sorted (ts : List Task) : SortedTasks (sortTasks ts) := by
  have h := List.sorted_mergeSort taskLE_trans taskLE_total ts
  exact h.imp (fun hab => by simpa [taskLE] using hab)

/-- Sorting permutes the task list. -/
theorem sortTasks_perm (ts : List Task) : (sortTasks ts).Perm ts :=
  List.mergeSort_perm ts taskLE

/-- Stability of the sort: the tasks holding any fixed start time keep
exactly the relative order they had before sorting. -/
theorem sortTasks_filter_key (ts : List Task) (s : String) :
    (sortTasks ts).filter (fun t => t.startTime = s) =
      ts.filter (fun t => t.startTime = s) := by
  have hsub : ts.filter (fun t => t.startTime = s) <+ sortTasks ts := by
    apply List.sublist_mergeSort taskLE_trans taskLE_total
    · apply List.pairwise_of_forall_mem_list
      intro a ha b hb
      have ha2 := (List.mem_filter.mp ha).2
      have hb2 := (List.mem_filter.mp hb).2
      simp only [decide_eq_true_eq] at ha2 hb2
      simp [taskLE, ha2, hb2]
    · exact List.filter_sublist ts
  have hsub2 : ts.filter (fun t => t.startTime = s) <+
      (sortTasks ts).filter (fun t => t.startTime = s) := by
    have h2 := List.Sublist.filter (fun t => decide (t.startTime = s)) hsub
    simpa [List.filter_filter] using h2
  have hlen : ((sortTasks ts).filter (fun t => t.startTime = s)).length =
      (ts.filter (fun t => t.startTime = s)).length :=
    ((sortTasks_perm ts).filter _).length_eq
  exact (hsub2.eq_of_length hlen.symm).symm

/-- When no task carries the id, the first-match update is inert. -/
theorem updateFirst_of_no_match (id : Nat) (d : TaskInput) :
    ∀ ts : List Task, (∀ t ∈ ts, t.id ≠ id) → updateFirst id d ts = ts := by
  intro ts
  induction ts with
  | nil => intro _; rfl
  | cons t ts ih =>
      intro h
      have ht := h t (List.mem_cons_self t ts)
      simp only [updateFirst, if_neg ht]
      rw [ih (fun u hu => h u (List.mem_cons_of_mem t hu))]

/-- When no task carries the id, the overwrite map is inert. -/
theorem map_overwrite_of_no_match (id : Nat) (d : TaskInput)
    (ts : List Task) (h : ∀ t ∈ ts, t.id ≠ id) :
    ts.map (fun t => if t.id = id then overwriteTask t d else t) = ts := by
  induction ts with
  | nil => rfl
  | cons t ts ih =>
      have ht := h t (List.mem_cons_self t ts)
      simp only [List.map_cons, if_neg ht]
      rw [ih (fun u hu => h u (List.mem_cons_of_mem t hu))]

/-- With distinct ids, updating the first match is the same as mapping
the overwrite over every match. -/
theorem updateFirst_eq_map (id : Nat) (d : TaskInput) (ts : List Task)
    (hnd : (ts.map Task.id).Nodup) :
    updateFirst id d ts =
      ts.map (fun t => if t.id = id then overwriteTask t d else t) := by
  induction ts with
  | nil => rfl
  | cons t ts ih =>
      simp only [List.map_cons, List.nodup_cons] at hnd
      by_cases ht : t.id = id
      · simp only [updateFirst, if_pos ht, List.map_cons, if_pos ht]
        rw [map_overwrite_of_no_match]
        intro u hu hui
        apply hnd.1
        have hmm : u.id ∈ ts.map Task.id := List.mem_map_of_mem Task.id hu
        rwa [hui, ← ht] at hmm
      · simp only [updateFirst, if_neg ht, List.map_cons, if_neg ht]
        rw [ih hnd.2]

/-- When no task carries the id, the first-match toggle is inert. -/
theorem toggleFirst_of_no_match (id : Nat) :
    ∀ ts : List Task, (∀ t ∈ ts, t.id ≠ id) → toggleFirst id ts = ts := by
  intro ts
  induction ts with
  | nil => intro _; rfl
  | cons t ts ih =>
      intro h
      have ht := h t (List.mem_cons_self t ts)
      simp only [toggleFirst, if_neg ht]
      rw [ih (fun u hu => h u (List.mem_cons_of_mem t hu))]

/-- Days the recurring loop never targets keep their stored record. -/
theorem addRecurringLoop_untouched (store : Store) (anchor : Int)
    (d : TaskInput) (nid : Nat) :
    ∀ (n : Nat) (k : Int), (∀ i : Nat, i < n → k ≠ anchor + i) →
      addRecurringLoop store anchor d nid n k = store k := by
  intro n
  induction n with
  | zero => intro k _; rfl
  | succ n ih =>
      intro k hk
      have hkey : k ≠ addDays anchor (n : Int) := by
        simpa [addDays] using hk n (Nat.lt_succ_self n)
      simp only [addRecurringLoop, saveDateData, if_neg hkey]
      exact ih k (fun i hi => hk i (Nat.lt_succ_of_lt hi))

/-- Day anchor + i of the recurring loop holds exactly its old record
with the i-th fresh task pushed and the list re-sorted. -/
theorem addRecurringLoop_target (store : Store) (anchor : Int)
    (d : TaskInput) (nid : Nat) :
    ∀ (n i : Nat), i < n →
      addRecurringLoop store anchor d nid n (anchor + i) =
        pushTaskSorted (store (anchor + i)) (mkTask (nid + i) d) := by
  intro n
  induction n with
  | zero => intro i hi; exact absurd hi (Nat.not_lt_zero i)
  | succ n ih =>
      intro i hi
      rcases Nat.lt_succ_iff_lt_or_eq.mp hi with hlt | heq
      · have hne : (anchor + (i : Int)) ≠ addDays anchor (n : Int) := by
          simp only [addDays, ne_eq, add_right_inj]
          exact_mod_cast Nat.ne_of_lt hlt
        simp only [addRecurringLoop, saveDateData, if_neg hne]
        exact ih i hlt
      · subst heq
        have huntouched : addRecurringLoop store anchor d nid i (anchor + i) =
            store (anchor + i) := by
          apply addRecurringLoop_untouched
          intro j hj
          simp only [ne_eq, add_right_inj]
          exact_mod_cast (Nat.ne_of_lt hj).symm
        simp only [addRecurringLoop, addDays, saveDateData, getDateData]
        rw [huntouched]
        simp

/-- Folding additions of a projection equals the sum of its map. -/
theorem foldl_add_map {α : Type} (f : α → Int) (l : List α) (init : Int) :
    l.foldl (fun s a => s + f a) init = init + (l.map f).sum := by
  induction l generalizing init with
  | nil => simp
  | cons a l ih =>
      simp only [List.foldl_cons, List.map_cons, List.sum_cons, ih]
      ring

/-! The claim theorems. -/

/-- C1.  After each task mutation of a DayRecord (addTask, every day
touched by addRecurringTask, updateTask) the task list is sorted
ascending by startTime under lexicographic string comparison, and for
every start time value the tasks holding it keep their prior relative
order (the order they had just after the insertion or in-place update,
i.e. the stable tie-break by original insertion order).  For updateTask
and addRecurringTask sortedness is stated as preservation of the
invariant, which closes the induction over arbitrary mutation
sequences; for addTask it holds unconditionally. -/
theorem claim1_tasks_sorted_stable :
    (∀ (r : DayRecord) (nid : Nat) (d : TaskInput),
        SortedTasks ((addTask r nid d).1.tasks)) ∧
    (∀ (r : DayRecord) (nid : Nat) (d : TaskInput) (s : String),
        ((addTask r nid d).1.tasks).filter (fun t => t.startTime = s) =
          (r.tasks ++ [(addTask r nid d).2]).filter
            (fun t => t.startTime = s)) ∧
    (∀ (r : DayRecord) (id : Nat) (d : TaskInput),
        SortedTasks r.tasks → SortedTasks ((updateTask r id d).tasks)) ∧
    (∀ (r : DayRecord) (id : Nat) (d : TaskInput) (s : String),
        ((updateTask r id d).tasks).filter (fun t => t.startTime = s) =
          (updateFirst id d r.tasks).filter (fun t => t.startTime = s)) ∧
    (∀ (store : Store) (anchor : Int) (d : TaskInput) (n nid : Nat),
        (∀ k, SortedTasks ((store k).tasks)) →
        ∀ k, SortedTasks ((addRecurringTask store anchor d n nid k).tasks)) := by
  refine ⟨?_, ?_, ?_, ?_, ?_⟩
  · intro r nid d
    exact sortTasks_sorted _
  · intro r nid d s
    exact sortTasks_filter_key _ s
  · intro r id d hs
    unfold updateTask
    split
    · exact sortTasks_sorted _
    · exact hs
  · intro r id d s
    unfold updateTask
    split
    · exact sortTasks_filter_key _ s
    · next hfound =>
        rw [updateFirst_of_no_match]
        intro t ht hti
        have : (r.tasks.find? (fun t => t.id = id)).isSome :=
          List.find?_isSome.mpr ⟨t, ht, by simp [hti]⟩
        exact hfound this
  · intro store anchor d n nid hall k
    by_cases hk : ∃ i : Nat, i < n ∧ k = anchor + i
    · obtain ⟨i, hi, rfl⟩ := hk
      rw [addRecurringTask, addRecurringLoop_target store anchor d nid n i hi]
      exact sortTasks_sorted _
    · push_neg at hk
      rw [addRecurringTask, addRecurringLoop_untouched store anchor d nid n k
        (fun i hi => hk i hi)]
      exact hall k

/-- C1 witness: the properties with hypotheses, instantiated.  An
update on the empty record keeps it sorted, and every record of the
store produced by a 3-day recurring add over the empty store is
sorted. -/
theorem claim1_tasks_sorted_stable_witness :
    SortedTasks ((updateTask defaultDateData 5 sampleInput).tasks) ∧
    SortedTasks ((addRecurringTask emptyStore 0 sampleInput 3 1 0).tasks) := by
  constructor
  · exact claim1_tasks_sorted_stable.2.2.1 defaultDateData 5 sampleInput
      (by simp [defaultDateData, SortedTasks])
  · exact claim1_tasks_sorted_stable.2.2.2.2 emptyStore 0 sampleInput 3 1
      (fun k => by simp [emptyStore, defaultDateData, SortedTasks]) 0

/-- C2.  Task creation under the fresh-id counter invariant (every
stored id is below the counter): addTask yields a completed = false
task whose id differs from every id already in the record, returns
exactly the task it inserted, touches no other collection, and
re-establishes the counter invariant; addRecurringTask over n days
gives each of the n consecutive days starting at the anchor exactly one
new task, with pairwise distinct ids that are fresh for their target
record, and leaves every other day untouched. -/
theorem claim2_fresh_ids :
    (∀ (r : DayRecord) (nid : Nat) (d : TaskInput),
        (∀ t ∈ r.tasks, t.id < nid) →
        (addTask r nid d).2.completed = false ∧
        (addTask r nid d).2 = mkTask nid d ∧
        (∀ t ∈ r.tasks, t.id ≠ (addTask r nid d).2.id) ∧
        ((addTask r nid d).1.tasks).Perm (r.tasks ++ [(addTask r nid d).2]) ∧
        (addTask r nid d).1.dsTopics = r.dsTopics ∧
        (addTask r nid d).1.englishActivities = r.englishActivities ∧
        (∀ t ∈ (addTask r nid d).1.tasks, t.id < nid + 1)) ∧
    (∀ (store : Store) (anchor : Int) (d : TaskInput) (n nid : Nat),
        (∀ k, ∀ t ∈ (store k).tasks, t.id < nid) →
        (∀ i : Nat, i < n →
            ((addRecurringTask store anchor d n nid (anchor + i)).tasks).Perm
              ((store (anchor + i)).tasks ++ [mkTask (nid + i) d]) ∧
            (mkTask (nid + i) d).completed = false ∧
            (∀ t ∈ (store (anchor + i)).tasks,
                t.id ≠ (mkTask (nid + i) d).id)) ∧
        (∀ i j : Nat, i < n → j < n → i ≠ j →
            (mkTask (nid + i) d).id ≠ (mkTask (nid + j) d).id) ∧
        (∀ k : Int, (∀ i : Nat, i < n → k ≠ anchor + i) →
            addRecurringTask store anchor d n nid k = store k)) := by
  constructor
  · intro r nid d hfresh
    refine ⟨rfl, rfl, ?_, ?_, rfl, rfl, ?_⟩
    · intro t ht
      exact Nat.ne_of_lt (hfresh t ht)
    · exact (sortTasks_perm _)
    · intro t ht
      have hmem : t ∈ r.tasks ++ [mkTask nid d] :=
        (sortTasks_perm (r.tasks ++ [mkTask nid d])).mem_iff.mp ht
      rcases List.mem_append.mp hmem with hold | hnew
      · exact Nat.lt_succ_of_lt (hfresh t hold)
      · rw [List.mem_singleton.mp hnew]
        exact Nat.lt_succ_self nid
  · intro store anchor d n nid hfresh
    refine ⟨?_, ?_, ?_⟩
    · intro i hi
      refine ⟨?_, rfl, ?_⟩
      · rw [addRecurringTask, addRecurringLoop_target store anchor d nid n i hi]
        exact sortTasks_perm _
      · intro t ht
        exact Nat.ne_of_lt
          (Nat.lt_of_lt_of_le (hfresh (anchor + i) t ht) (Nat.le_add_right nid i))
    · intro i j hi hj hij
      simp only [mkTask, ne_eq]
      omega
    · intro k hk
      exact addRecurringLoop_untouched store anchor d nid n k hk

/-- C2 witness: with the counter above every id of the example record,
the inserted task is returned, appended up to permutation, and a
recurring add over the empty store gives day anchor + 0 exactly the
first fresh task. -/
theorem claim2_fresh_ids_witness :
    ((addTask recOneOfThree 9 sampleInput).1.tasks).Perm
      (recOneOfThree.tasks ++ [(addTask recOneOfThree 9 sampleInput).2]) ∧
    ((addRecurringTask emptyStore 5 sampleInput 3 1 (5 + (0 : Nat))).tasks).Perm
      ((emptyStore (5 + (0 : Nat))).tasks ++ [mkTask (1 + 0) sampleInput]) := by
  constructor
  · exact (claim2_fresh_ids.1 recOneOfThree 9 sampleInput
      (by decide)).2.2.2.1
  · exact ((claim2_fresh_ids.2 emptyStore 5 sampleInput 3 1
      (fun k t ht => by simp [emptyStore, defaultDateData] at ht)).1 0
      (by decide)).1

/-- C3.  getStats returns the task count, the completed count, rate 0
on an empty day, and otherwise the integer R with
2 t R ≤ 200 c + t < 2 t (R + 1), which characterizes R as
100 c / t rounded to the nearest integer with halves rounded up; in
particular 1 completed of 3 gives rate 33 and 2 of 3 gives 67. -/
theorem claim3_stats_rate (r : DayRecord) :
    (getStats r).total = r.tasks.length ∧
    (getStats r).completed = (r.tasks.filter (fun t => t.completed)).length ∧
    (r.tasks.length = 0 → (getStats r).rate = 0) ∧
    (0 < r.tasks.length →
        2 * (r.tasks.length : Int) * (getStats r).rate ≤
          200 * ((r.tasks.filter (fun t => t.completed)).length : Int) +
            (r.tasks.length : Int) ∧
        200 * ((r.tasks.filter (fun t => t.completed)).length : Int) +
            (r.tasks.length : Int) <
          2 * (r.tasks.length : Int) * ((getStats r).rate + 1)) ∧
    getStats recOneOfThree = { total := 3, completed := 1, rate := 33 } ∧
    getStats recTwoOfThree = { total := 3, completed := 2, rate := 67 } := by
  refine ⟨rfl, rfl, ?_, ?_, ?_, ?_⟩
  · intro h0
    simp [getStats, h0]
  · intro hpos
    have hrate : (getStats r).rate =
        ⌊(((r.tasks.filter (fun t => t.completed)).length : ℚ) /
            (r.tasks.length : ℚ)) * 100 + 1 / 2⌋ := by
      simp [getStats, hpos, jsRound]
    have htQ : ((r.tasks.length : ℚ)) ≠ 0 := by
      exact_mod_cast Nat.pos_iff_ne_zero.mp hpos
    have htQpos : (0 : ℚ) < 2 * (r.tasks.length : ℚ) := by
      have : (0 : ℚ) < (r.tasks.length : ℚ) := by exact_mod_cast hpos
      linarith
    have key : 2 * ((r.tasks.length : ℚ)) *
        ((((r.tasks.filter (fun t => t.completed)).length : ℚ) /
            (r.tasks.length : ℚ)) * 100 + 1 / 2) =
        200 * (((r.tasks.filter (fun t => t.completed)).length : ℚ)) +
          (r.tasks.length : ℚ) := by
      field_simp
      ring
    constructor
    · have g1 : 2 * ((r.tasks.length : ℚ)) * ((getStats r).rate : ℚ) ≤
          200 * (((r.tasks.filter (fun t => t.completed)).length : ℚ)) +
            (r.tasks.length : ℚ) := by
        rw [hrate, ← key]
        exact mul_le_mul_of_nonneg_left (Int.floor_le _) (le_of_lt htQpos)
      exact_mod_cast g1
    · have g2 : 200 * (((r.tasks.filter (fun t => t.completed)).length : ℚ)) +
          (r.tasks.length : ℚ) <
          2 * ((r.tasks.length : ℚ)) * (((getStats r).rate : ℚ) + 1) := by
        rw [hrate, ← key]
        exact mul_lt_mul_of_pos_left (Int.lt_floor_add_one _) htQpos
      exact_mod_cast g2
  · simp only [getStats, recOneOfThree, sampleTask, jsRound]
    norm_num [List.filter]
  · simp only [getStats, recTwoOfThree, sampleTask, jsRound]
    norm_num [List.filter]

/-- C3 witness: the rate characterization instantiated on the day with
3 tasks and 1 completed, and the empty-day case on the default
record. -/
theorem claim3_stats_rate_witness :
    (2 * (recOneOfThree.tasks.length : Int) * (getStats recOneOfThree).rate ≤
        200 * ((recOneOfThree.tasks.filter (fun t => t.completed)).length : Int) +
          (recOneOfThree.tasks.length : Int)) ∧
    (getStats defaultDateData).rate = 0 := by
  constructor
  · exact ((claim3_stats_rate recOneOfThree).2.2.2.1 (by decide)).1
  · exact (claim3_stats_rate defaultDateData).2.2.1 rfl

/-- C4.  When the record holds a task with the id (ids being unique in
a record, per the data model), updateTask keeps studyTopics and
practiceActivities untouched, and its task list is a re-sorted
permutation of the old list in which exactly the matching task has its
startTime, endTime, name and category overwritten with the input while
its id and completed flag survive. -/
theorem claim4_update_frame (r : DayRecord) (id : Nat) (d : TaskInput)
    (hmem : ∃ t ∈ r.tasks, t.id = id)
    (hnd : (r.tasks.map Task.id).Nodup) :
    (updateTask r id d).dsTopics = r.dsTopics ∧
    (updateTask r id d).englishActivities = r.englishActivities ∧
    ((updateTask r id d).tasks).Perm
      (r.tasks.map (fun t => if t.id = id then overwriteTask t d else t)) ∧
    SortedTasks ((updateTask r id d).tasks) ∧
    (∀ t : Task,
        (overwriteTask t d).id = t.id ∧
        (overwriteTask t d).completed = t.completed ∧
        (overwriteTask t d).startTime = d.startTime ∧
        (overwriteTask t d).endTime = d.endTime ∧
        (overwriteTask t d).name = d.name ∧
        (overwriteTask t d).category = d.category) := by
  obtain ⟨t0, ht0, ht0id⟩ := hmem
  have hfound : (r.tasks.find? (fun t => t.id = id)).isSome :=
    List.find?_isSome.mpr ⟨t0, ht0, by simp [ht0id]⟩
  have hupd : updateTask r id d =
      { r with tasks := sortTasks (updateFirst id d r.tasks) } := by
    rw [updateTask, if_pos hfound]
  refine ⟨by rw [hupd], by rw [hupd], ?_, ?_, ?_⟩
  · rw [hupd]
    show (sortTasks (updateFirst id d r.tasks)).Perm _
    rw [updateFirst_eq_map id d r.tasks hnd]
    exact sortTasks_perm _
  · rw [hupd]
    exact sortTasks_sorted _
  · intro t
    exact ⟨rfl, rfl, rfl, rfl, rfl, rfl⟩

/-- C4 witness: updating the task with id 1 of the example day keeps
the other collections, permutes into the overwrite map, and stays
sorted. -/
theorem claim4_update_frame_witness :
    (updateTask recOneOfThree 1 sampleInput).dsTopics =
        recOneOfThree.dsTopics ∧
    ((updateTask recOneOfThree 1 sampleInput).tasks).Perm
      (recOneOfThree.tasks.map
        (fun t => if t.id = 1 then overwriteTask t sampleInput else t)) ∧
    SortedTasks ((updateTask recOneOfThree 1 sampleInput).tasks) := by
  have h := claim4_update_frame recOneOfThree 1 sampleInput
    (by decide) (by decide)
  exact ⟨h.1, h.2.2.1, h.2.2.2.1⟩

/-- C5.  For an id not present anywhere in the record, updateTask,
deleteTask, toggleTask, deleteTopic and deleteActivity all return the
record unchanged and signal nothing; deleteTask at the AppState level
still performs its write-through save even though nothing was
removed. -/
theorem claim5_missing_id_noop (r : DayRecord) (id : Nat) (d : TaskInput)
    (h1 : ∀ t ∈ r.tasks, t.id ≠ id)
    (h2 : ∀ t ∈ r.dsTopics, t.id ≠ id)
    (h3 : ∀ a ∈ r.englishActivities, a.id ≠ id) :
    updateTask r id d = r ∧
    deleteTask r id = r ∧
    toggleTask r id = r ∧
    deleteTopic r id = r ∧
    deleteActivity r id = r ∧
    (∀ st : AppSt, st.currentData = r →
        appDeleteTask st id =
          { st with store := saveDateData st.store st.currentDay r }) := by
  have hnone : r.tasks.find? (fun t => t.id = id) = none :=
    List.find?_eq_none.mpr (fun t ht => by simp [h1 t ht])
  have hdel : deleteTask r id = r := by
    unfold deleteTask
    rw [List.filter_eq_self.mpr (fun t ht => by simp [h1 t ht])]
  refine ⟨?_, hdel, ?_, ?_, ?_, ?_⟩
  · rw [updateTask, hnone]
    rfl
  · rw [toggleTask, hnone]
    rfl
  · unfold deleteTopic
    rw [List.filter_eq_self.mpr (fun t ht => by simp [h2 t ht])]
  · unfold deleteActivity
    rw [List.filter_eq_self.mpr (fun a ha => by simp [h3 a ha])]
  · intro st hst
    cases st with
    | mk day data nid store =>
        cases hst
        simp only [appDeleteTask, appSave, hdel]

/-- C5 witness: operations with the unknown id 99 on the example day
are identities. -/
theorem claim5_missing_id_noop_witness :
    updateTask recOneOfThree 99 sampleInput = recOneOfThree ∧
    deleteTask recOneOfThree 99 = recOneOfThree ∧
    toggleTask recOneOfThree 99 = recOneOfThree := by
  have h := claim5_missing_id_noop recOneOfThree 99 sampleInput
    (by decide) (by decide) (by decide)
  exact ⟨h.1, h.2.1, h.2.2.1⟩

/-- C6 counterexample: addTopic stores the duration value exactly as
given, with no integer parsing.  On an input whose duration field is
the non-numeric string "abc", the single appended entry carries the
set value "abc", which is not an integer (parseIntJs rejects it) and
not unset, refuting the clause that the stored duration is parsed as an
integer or left unset. -/
theorem claim6_duration_counterexample :
    cxTopicInput.duration = "abc" ∧
    (addTopic defaultDateData 7 0 cxTopicInput).toOption.map
        (fun r => r.dsTopics.map (fun t => t.duration)) =
      some [some "abc"] ∧
    parseIntJs "abc" = none := by
  refine ⟨rfl, ?_, ?_⟩ <;> decide

/-- C6 as amended: with the notes field a string, addTopic with a topic
that trims empty leaves the record unchanged, and otherwise appends
exactly one entry at the end whose topic is the trimmed input, whose
duration is the raw input string when non-empty and unset otherwise (no
parsing at add time), whose difficulty defaults to Intermediate and
resource to Other when the inputs are empty, whose notes are the
trimmed input or unset when that trims empty, and whose date is the
current DateKey. -/
theorem claim6_add_topic_spec (r : DayRecord) (nid : Nat) (today : Int)
    (input : TopicInput) (ns : String) (hns : input.notes = some ns) :
    (jsTrim input.topic = "" → addTopic r nid today input = .ok r) ∧
    (jsTrim input.topic ≠ "" →
      addTopic r nid today input = .ok { r with
        dsTopics := r.dsTopics ++ [{
          id := nid
          topic := jsTrim input.topic
          duration :=
            if input.duration = "" then none else some input.duration
          difficulty :=
            if input.difficulty = "" then "Intermediate"
            else input.difficulty
          resource := if input.resource = "" then "Other" else input.resource
          notes := if jsTrim ns = "" then none else some (jsTrim ns)
          date := today }] }) := by
  constructor
  · intro h0
    rw [addTopic, if_neg (by simp [h0])]
  · intro h1
    rw [addTopic, if_pos h1, hns]
    simp only [strOrNull, strOrDefault]

/-- C6 witness: the amended characterization applied to a concrete
input with a trimmable topic, empty duration and difficulty, and blank
notes. -/
theorem claim6_add_topic_spec_witness :
    addTopic defaultDateData 7 0 sampleTopicInput = .ok { defaultDateData with
      dsTopics := defaultDateData.dsTopics ++ [{
        id := 7
        topic := jsTrim sampleTopicInput.topic
        duration :=
          if sampleTopicInput.duration = "" then none
          else some sampleTopicInput.duration
        difficulty :=
          if sampleTopicInput.difficulty = "" then "Intermediate"
          else sampleTopicInput.difficulty
        resource :=
          if sampleTopicInput.resource = "" then "Other"
          else sampleTopicInput.resource
        notes := if jsTrim "  " = "" then none else some (jsTrim "  ")
        date := 0 }] } :=
  (claim6_add_topic_spec defaultDateData 7 0 sampleTopicInput "  " rfl).2
    (by decide)

/-- C7.  With content and notes strings (so that the trim calls do not
throw), addActivity always appends exactly one activity, with no
empty-input guard, and the stored completed flag is true exactly when
the input completed value is the string literal "true"; in particular
the boolean true yields completed = false. -/
theorem claim7_completed_strict_literal (r : DayRecord) (nid : Nat)
    (today : Int) (input : ActivityInput) (c ns : String)
    (hc : input.content = some c) (hn : input.notes = some ns) :
    addActivity r nid today input = .ok { r with
      englishActivities :=
        r.englishActivities ++ [builtActivity nid today input c ns] } ∧
    ((builtActivity nid today input c ns).completed = true ↔
      input.completed = JsVal.str "true") ∧
    (input.completed = JsVal.bool true →
      (builtActivity nid today input c ns).completed = false) := by
  refine ⟨?_, ?_, ?_⟩
  · rw [addActivity, hc, hn]
    rfl
  · show strictEqTrueLit input.completed = true ↔ _
    cases input.completed <;> simp [strictEqTrueLit]
  · intro hb
    show strictEqTrueLit input.completed = false
    rw [hb]
    rfl

/-- C7 witness: the characterization applied to a concrete input whose
completed field is the boolean true, which therefore stores
completed = false. -/
theorem claim7_completed_strict_literal_witness :
    addActivity defaultDateData 3 0 sampleActivityInput =
      .ok { defaultDateData with
        englishActivities := defaultDateData.englishActivities ++
          [builtActivity 3 0 sampleActivityInput " news " ""] } ∧
    (builtActivity 3 0 sampleActivityInput " news " "").completed = false := by
  have h := claim7_completed_strict_literal defaultDateData 3 0
    sampleActivityInput " news " "" rfl rfl
  exact ⟨h.1, h.2.2 rfl⟩

/-- C8.  Both summaries count their collection (and, for activities,
the completed filter) by length, and total minutes is the sum of the
per-entry contributions, where an unset duration and a non-numeric
duration both contribute 0; on topics with durations 30, null and
"abc" the total is 30. -/
theorem claim8_summary_minutes :
    (∀ r : DayRecord, (dsGetSummary r).totalSessions = r.dsTopics.length) ∧
    (∀ r : DayRecord, (dsGetSummary r).totalMinutes =
        (r.dsTopics.map (fun t => durationContribution t.duration)).sum) ∧
    (∀ r : DayRecord,
        (englishGetSummary r).totalActivities = r.englishActivities.length) ∧
    (∀ r : DayRecord, (englishGetSummary r).completedActivities =
        (r.englishActivities.filter (fun a => a.completed)).length) ∧
    (∀ r : DayRecord, (englishGetSummary r).totalMinutes =
        (r.englishActivities.map
          (fun a => durationContribution a.duration)).sum) ∧
    durationContribution none = 0 ∧
    durationContribution (some "abc") = 0 ∧
    durationContribution (some "30") = 30 ∧
    (dsGetSummary recDurations).totalMinutes = 30 := by
  refine ⟨fun r => rfl, ?_, fun r => rfl, fun r => rfl, ?_, rfl, ?_, ?_, ?_⟩
  · intro r
    simpa using
      foldl_add_map (fun t => durationContribution t.duration) r.dsTopics 0
  · intro r
    simpa using
      foldl_add_map (fun a => durationContribution a.duration)
        r.englishActivities 0
  · decide
  · decide
  · decide

/-- C9.  The weekly overview starts at the Monday of the week of the
anchor (6 days back when the anchor is a Sunday, otherwise back by the
ISO weekday minus 1), renders exactly 7 entries for the 7 consecutive
days from that start, each showing the completion rate that getStats
computes for the stored record of its day, and a week over the empty
store shows rate 0 on all 7 cards.  The embedded renderWeeklyOverview
takes the store as a plain value and returns only the entries, so it
cannot mutate any stored record. -/
theorem claim9_weekly_overview :
    (∀ anchor : Int, jsGetDay anchor = 0 →
        getStartOfWeek anchor = anchor - 6) ∧
    (∀ anchor : Int, jsGetDay anchor ≠ 0 →
        getStartOfWeek anchor = anchor - (isoWeekday anchor - 1)) ∧
    (∀ (store : Store) (anchor : Int),
        (weeklyOverview store anchor).length = 7) ∧
    (∀ (store : Store) (anchor : Int),
        (weeklyOverview store anchor).map (fun e => e.day) =
          (List.range 7).map
            (fun i => getStartOfWeek anchor + (i : Int))) ∧
    (∀ (store : Store) (anchor : Int),
        (weeklyOverview store anchor).map (fun e => e.completionRate) =
          (List.range 7).map
            (fun i => (getStats
              (store (getStartOfWeek anchor + (i : Int)))).rate)) ∧
    (∀ anchor : Int,
        (weeklyOverview emptyStore anchor).map (fun e => e.completionRate) =
          [0, 0, 0, 0, 0, 0, 0]) := by
  refine ⟨?_, ?_, ?_, ?_, ?_, ?_⟩
  · intro anchor h0
    rw [getStartOfWeek, if_pos h0]
    ring
  · intro anchor h0
    rw [getStartOfWeek, if_neg h0, isoWeekday, if_neg h0]
    ring
  · intro store anchor
    rfl
  · intro store anchor
    simp [weeklyOverview, List.map_map, Function.comp, addDays]
  · intro store anchor
    simp [weeklyOverview, List.map_map, Function.comp, addDays,
      getDateData, getStats]
  · intro anchor
    rfl

/-- C9 witness: day 3 of the epoch (1970-01-04) was a Sunday, and its
week starts 6 days earlier; day 0 was a Thursday, and its week starts
at the ISO offset. -/
theorem claim9_weekly_overview_witness :
    getStartOfWeek 3 = 3 - 6 ∧ getStartOfWeek 0 = 0 - (isoWeekday 0 - 1) :=
  ⟨claim9_weekly_overview.1 3 (by decide),
   claim9_weekly_overview.2.1 0 (by decide)⟩

/-- C10 counterexample: an input whose notes field is absent but whose
topic trims to empty does not fail: the guard returns first and the
operation is a silent no-op, refuting the clause that every input with
an absent or null notes field produces a runtime type error. -/
theorem claim10_no_throw_counterexample :
    cxTopicInputEmpty.notes = none ∧
    addTopic defaultDateData 7 0 cxTopicInputEmpty = .ok defaultDateData := by
  refine ⟨rfl, ?_⟩
  have h : jsTrim cxTopicInputEmpty.topic = "" := by decide
  rw [addTopic, if_neg (by simp [h])]

/-- C10 as amended: addTopic dereferences the notes field only when the
topic trims nonempty, and then an absent or null notes value makes the
operation fail with a type error before the record or store is touched
(the error result carries no record; with an empty topic the guard
returns the record unchanged even when notes is absent); addActivity
unconditionally dereferences content and notes, so an absent value of
either always fails the same way; under the precondition that these
fields are strings both operations are total. -/
theorem claim10_string_preconditions :
    (∀ (r : DayRecord) (nid : Nat) (today : Int) (input : TopicInput),
        jsTrim input.topic ≠ "" → input.notes = none →
        addTopic r nid today input = .error ()) ∧
    (∀ (r : DayRecord) (nid : Nat) (today : Int) (input : TopicInput),
        jsTrim input.topic = "" → addTopic r nid today input = .ok r) ∧
    (∀ (r : DayRecord) (nid : Nat) (today : Int) (input : TopicInput)
        (ns : String), input.notes = some ns →
        (addTopic r nid today input).toOption.isSome = true) ∧
    (∀ (r : DayRecord) (nid : Nat) (today : Int) (input : ActivityInput),
        input.content = none ∨ input.notes = none →
        addActivity r nid today input = .error ()) ∧
    (∀ (r : DayRecord) (nid : Nat) (today : Int) (input : ActivityInput)
        (c ns : String), input.content = some c → input.notes = some ns →
        (addActivity r nid today input).toOption.isSome = true) := by
  refine ⟨?_, ?_, ?_, ?_, ?_⟩
  · intro r nid today input h1 h2
    rw [addTopic, if_pos h1, h2]
  · intro r nid today input h
    rw [addTopic, if_neg (by simp [h])]
  · intro r nid today input ns hns
    rw [addTopic, hns]
    split <;> rfl
  · intro r nid today input h
    rcases h with h | h
    · cases hn : input.notes <;> rw [addActivity, h, hn]
    · cases hc : input.content <;> rw [addActivity, h, hc]
  · intro r nid today input c ns hc hn
    rw [addActivity, hc, hn]
    rfl

/-- C10 witness: an activity input with absent content fails, and a
topic input with string notes succeeds. -/
theorem claim10_string_preconditions_witness :
    addActivity defaultDateData 7 0 nullContentActivityInput = .error () ∧
    (addTopic defaultDateData 7 0 sampleTopicInput).toOption.isSome = true :=
  ⟨claim10_string_preconditions.2.2.2.1 defaultDateData 7 0
      nullContentActivityInput (Or.inl rfl),
   claim10_string_preconditions.2.2.1 defaultDateData 7 0
      sampleTopicInput "  " rfl⟩

end StudySchedule
